import Mathlib

/-!
Shallow embedding of the Coin Ledger Engine of the `coinbot` repository
(`src/coinbot/db.py`, `src/coinbot/core.py`, `src/coinbot/utils.py`,
`src/coinbot/metadata.py`) together with theorems settling the frozen
claims about it.

Conventions of the embedding:
* dates are natural numbers (larger = later); `today` is passed explicitly;
* a pandas `NA` value is `Option.none`;
* spreadsheet cell values are the inductive `CellValue` (integer cell,
  string cell, or empty cell); fill colors are the inductive `ColorId`
  (string-keyed or integer-keyed, mirroring the mixed-key Python dict);
* Python exceptions are `Except.error`;
* pandas equality semantics (`NA == x` is falsy in a filter) are the
  function `pdEq`; the explicit null-aware test
  `(a.isna() & b.isna()) | (a == b)` used by `DataBase.align` is `nullEq`.
-/

/-- A raw spreadsheet cell value as seen by `openpyxl` (`data_only=True`):
an integer, a string, or an empty cell (`None`). -/
inductive CellValue where
  | int (n : Int)
  | str (s : String)
  | empty
deriving DecidableEq, Repr

/-- A fill-color identifier (`cell.fill.start_color.index`): the Python color
dict in `coinbot/metadata.py` has both string keys and integer keys. -/
inductive ColorId where
  | s (v : String)
  | i (v : Int)
deriving DecidableEq, Repr

/-- A spreadsheet cell: value plus fill color. -/
structure Cell where
  value : CellValue
  color : ColorId
deriving DecidableEq, Repr

/-- `colors` lookup from `coinbot/metadata.py` combined with the
`colors.get(fill_color, "unknown")` fallback of `DataBase.cell_status`. -/
def cellStatus (c : ColorId) : String :=
  match c with
  | .s "1" => "unavailable"
  | .i 1 => "unavailable"
  | .s "00000000" => "missing"
  | .s "0" => "missing"
  | .i 0 => "missing"
  | .s "FF00B050" => "collected"
  | _ => "unknown"

/-- Whether a color identifier is a key of the `colors` dict of
`coinbot/metadata.py`. -/
def knownColor (c : ColorId) : Bool :=
  match c with
  | .s "1" => true
  | .i 1 => true
  | .s "00000000" => true
  | .s "0" => true
  | .i 0 => true
  | .s "FF00B050" => true
  | _ => false

/-- `countries` from `coinbot/metadata.py` (`eurozone + euro_users`). -/
def countries : List String :=
  ["Belgium", "Germany", "Estonia", "Finland", "France", "Greece", "Ireland",
   "Italy", "Croatia", "Latvia", "Lithuania", "Luxembourg", "Malta",
   "Netherlands", "Austria", "Portugal", "San Marino", "Slovakia", "Slovenia",
   "Spain", "Cyprus", "Vatican", "Monaco", "Andorra"]

/-- `coin_values` from `coinbot/metadata.py`. -/
def coin_values : List String :=
  ["1 Cent", "2 Cent", "5 Cent", "10 Cent", "20 Cent", "50 Cent",
   "1 Euro", "2 Euro"]

/-- Python's `str.isdigit` restricted to ASCII digits, as used by
`convert_to_thousands` (nonempty and all digits). -/
def pyIsDigit (s : String) : Bool :=
  s.length ≠ 0 && s.toList.all Char.isDigit

/-- Truncating division toward zero, matching Python's
`value / 1000` followed by `astype(int)` (numpy truncates toward zero). -/
def truncDiv (n : Int) (m : Int) : Int :=
  Int.tdiv n m

/-- `convert_to_thousands` from `coinbot/utils.py`, fused with the
`.astype(int)` truncation applied to the resulting Amount column in
`setup_eu_dataframe` / `setup_ger_dataframe`: an integer cell value is
divided by 1000 (truncated), a digit string is parsed and divided by 1000,
anything else becomes the sentinel `-1`. -/
def convert_to_thousands (v : CellValue) : Int :=
  match v with
  | .int n => truncDiv n 1000
  | .str s => if pyIsDigit s then truncDiv (s.toNat!) 1000 else -1
  | .empty => -1

/-- The placeholder normalization shared by `setup_eu_dataframe` and
`setup_ger_dataframe`: `cell.value if cell.value not in [None, "---", "???"]
else 0`. -/
def placeholderToZero (v : CellValue) : CellValue :=
  if v = .empty ∨ v = .str "---" ∨ v = .str "???" then .int 0 else v

/-- Amount decoding for Grid A (EU sheet) and Grid B (Germany sheet):
placeholder normalization followed by `convert_to_thousands` and the
`astype(int)` truncation. -/
def euAmount (v : CellValue) : Int :=
  convert_to_thousands (placeholderToZero v)

/-- Amount decoding for Grid B (Germany sheet), `setup_ger_dataframe`:
textually the same pipeline as the EU sheet. -/
def gerAmount (v : CellValue) : Int :=
  convert_to_thousands (placeholderToZero v)

/-- Amount decoding for the Sondermünzen (special coins) sheet,
`setup_sonder_dataframe` line `amount = int(row[3].value * 1000)`:
an integer cell is multiplied by 1000; `None * 1000` raises `TypeError`;
a string cell is Python string repetition `s * 1000` fed to `int(...)`,
which succeeds only on a (signless) digit string. -/
def sonderAmount (v : CellValue) : Except String Int :=
  match v with
  | .int n => .ok (n * 1000)
  | .empty => .error "TypeError"
  | .str s =>
      if pyIsDigit s then
        .ok ((String.join (List.replicate 1000 s)).toNat!)
      else .error "ValueError"

section AlignEmbedding

/-- A row as produced by the sheet decoders, before `DataBase.align`
inserts the provenance columns (`Created`, `Collected`, `Collector`,
`Staged`). String fields are already lower-cased by the `DataBase.__init__`
normalization; `Option.none` is pandas `NA`. -/
structure FreshRow where
  country : Option String
  year : Option Int
  coinValue : Option String
  source : Option String
  name : Option String
  special : Bool
  amount : Int
  status : String
deriving DecidableEq, Repr

/-- A full ledger row: the snapshot-CSV shape read back by `align`
(and the shape of rows after `align` ran). -/
structure Row where
  country : Option String
  year : Option Int
  coinValue : Option String
  source : Option String
  name : Option String
  special : Bool
  amount : Int
  status : String
  created : Option Nat
  collected : Option Nat
  collector : Option String
  staged : Option Bool
deriving DecidableEq, Repr

/-- pandas equality in a boolean filter: `NA == x` never selects. -/
def pdEq {α : Type} [DecidableEq α] (a b : Option α) : Bool :=
  match a, b with
  | some x, some y => x = y
  | _, _ => false

/-- The null-aware equality used by `align` for `Source` and `Name`:
`(tdf[c].isna() & pd.isna(r[c])) | (tdf[c] == r[c])`. -/
def nullEq {α : Type} [DecidableEq α] (a b : Option α) : Bool :=
  (a.isNone && b.isNone) || pdEq a b

/-- The identity-key filter of `DataBase.align`: previous-snapshot rows
matching a freshly decoded row on Country, Year, Coin Value, Special,
and null-aware Source and Name. -/
def identityMatch (r : FreshRow) (old : Row) : Bool :=
  pdEq old.country r.country &&
  pdEq old.year r.year &&
  pdEq old.coinValue r.coinValue &&
  (old.special == r.special) &&
  nullEq old.source r.source &&
  nullEq old.name r.name

/-- Lift a fresh row to a full row with the four inserted provenance
columns (all `pd.NA` right after the `insert` calls in `align`). -/
def FreshRow.withNA (r : FreshRow) : Row :=
  { country := r.country, year := r.year, coinValue := r.coinValue,
    source := r.source, name := r.name, special := r.special,
    amount := r.amount, status := r.status,
    created := none, collected := none, collector := none, staged := none }

/-- One iteration of the `align` loop for a single fresh row `r` against the
previous snapshot `prev` (`self.latest_df`): zero matches mark the row
freshly created today; more than one match logs an error and leaves the
inserted NA defaults; exactly one match carries provenance over, stamping
`Collected = today` on a transition into \x22collected\x22 and raising
`ValueError` on any other status divergence. -/
def alignRow (today : Nat) (prev : List Row) (r : FreshRow) :
    Except String Row :=
  match prev.filter (identityMatch r) with
  | _ :: _ :: _ => .ok r.withNA
  | [] => .ok { r.withNA with created := some today }
  | [old] =>
      if r.status = old.status then
        .ok { r.withNA with created := old.created, collected := old.collected }
      else if r.status = "collected" && old.status ≠ "collected" then
        .ok { r.withNA with created := old.created, collected := some today }
      else
        .error "Status divergence"

/-- `DataBase.align`: the loop over all freshly decoded rows; the first
`ValueError` aborts the whole pass (the Python exception propagates out of
the `DataBase` constructor). -/
def align (today : Nat) (prev : List Row) : List FreshRow → Except String (List Row)
  | [] => .ok []
  | r :: rest =>
      match alignRow today prev r with
      | .error e => .error e
      | .ok row =>
          match align today prev rest with
          | .error e => .error e
          | .ok rows => .ok (row :: rows)

/-- The ledger-holding state of `CoinBot` (`self.db`). -/
structure BotState where
  db : List Row
deriving DecidableEq, Repr

/-- `CoinBot.reload_data` restricted to the ledger reference: the assignment
`self.db = DataBase(...)` happens only if the `DataBase` constructor (which
runs `align`) returns normally; an exception leaves `self.db` untouched. -/
def reloadData (st : BotState) (res : Except String (List Row)) : BotState :=
  match res with
  | .ok d => { db := d }
  | .error _ => st

end AlignEmbedding

section EuDecoder

/-- A decoded Grid A (EU sheet) row, after the DataFrame post-processing of
`setup_eu_dataframe` (amount conversion, coin-value lower-casing,
`Special = False`). -/
structure EuRow where
  country : String
  year : Int
  coinValue : String
  amount : Int
  status : String
  special : Bool
deriving DecidableEq, Repr

/-- Python `row[j]` on a list of cells: `IndexError` when out of range. -/
def getCell (row : List Cell) (j : Nat) : Except String Cell :=
  match row[j]? with
  | some c => .ok c
  | none => .error "IndexError"

/-- Python `rows[i]` on the list of sheet rows. -/
def getRow (rows : List (List Cell)) (i : Nat) : Except String (List Cell) :=
  match rows[i]? with
  | some r => .ok r
  | none => .error "IndexError"

/-- The year-header scan of `setup_eu_dataframe`: collect integer cells in
`1999..2030`, stop at the first empty cell, skip everything else. -/
def collectYears : List Cell → List Int
  | [] => []
  | c :: rest =>
      match c.value with
      | .int n =>
          if 1999 ≤ n ∧ n ≤ 2030 then n :: collectYears rest
          else collectYears rest
      | .empty => []
      | .str _ => collectYears rest

/-- Decode one (year, coin value) cell of a Grid A country block:
`coin_row = rows[num_countries * 11 + value_idx + 2]`,
`cell = coin_row[year_idx + 1]`. -/
def decodeEuCell (rows : List (List Cell)) (nc : Nat) (country : String)
    (year : Int) (yearIdx valueIdx : Nat) (coinValue : String) :
    Except String EuRow :=
  match getRow rows (nc * 11 + valueIdx + 2) with
  | .error e => .error e
  | .ok coinRow =>
      match getCell coinRow (yearIdx + 1) with
      | .error e => .error e
      | .ok cell =>
          .ok { country := country, year := year,
                coinValue := coinValue.toLower,
                amount := euAmount cell.value,
                status := cellStatus cell.color, special := false }

/-- Decode all coin values of `pairs` (position, value) for one year of a
country block, in sheet order, stopping at the first `IndexError`. -/
def decodeEuYearAux (rows : List (List Cell)) (nc : Nat) (country : String)
    (year : Int) (yearIdx : Nat) :
    List (Nat × String) → Except String (List EuRow)
  | [] => .ok []
  | (vIdx, cv) :: rest =>
      match decodeEuCell rows nc country year yearIdx vIdx cv with
      | .error e => .error e
      | .ok row =>
          match decodeEuYearAux rows nc country year yearIdx rest with
          | .error e => .error e
          | .ok tail => .ok (row :: tail)

/-- Decode all eight coin values for one year of a country block. -/
def decodeEuYear (rows : List (List Cell)) (nc : Nat) (country : String)
    (year : Int) (yearIdx : Nat) : Except String (List EuRow) :=
  decodeEuYearAux rows nc country year yearIdx coin_values.enum

/-- Decode the years of `pairs` (year position, year) for one country
block, in sheet order. -/
def decodeEuBlockAux (rows : List (List Cell)) (nc : Nat) (country : String) :
    List (Nat × Int) → Except String (List EuRow)
  | [] => .ok []
  | (yIdx, y) :: rest =>
      match decodeEuYear rows nc country y yIdx with
      | .error e => .error e
      | .ok rowsOfYear =>
          match decodeEuBlockAux rows nc country rest with
          | .error e => .error e
          | .ok tail => .ok (rowsOfYear ++ tail)

/-- Decode a whole country block (all years found in the year-header row). -/
def decodeEuBlock (rows : List (List Cell)) (nc : Nat) (country : String)
    (years : List Int) : Except String (List EuRow) :=
  decodeEuBlockAux rows nc country years.enum

/-- The main scan of `setup_eu_dataframe`: walk every row; on a row whose
column-1 cell holds a country name, read the next row as year header and
decode the fixed 8-row block at offset `num_countries * 11 + 2`. -/
def euLoop (rows : List (List Cell)) :
    Nat → Nat → List (List Cell) → Except String (List EuRow)
  | _, _, [] => .ok []
  | i, nc, row :: rest =>
      match getCell row 1 with
      | .error e => .error e
      | .ok c1 =>
          match c1.value with
          | .str s =>
              if s ∈ countries then
                match getRow rows (i + 1) with
                | .error e => .error e
                | .ok yearRow =>
                    match decodeEuBlock rows nc s
                        (collectYears (yearRow.drop 1)) with
                    | .error e => .error e
                    | .ok block =>
                        match euLoop rows (i + 1) (nc + 1) rest with
                        | .error e => .error e
                        | .ok tail => .ok (block ++ tail)
              else euLoop rows (i + 1) nc rest
          | _ => euLoop rows (i + 1) nc rest

/-- `DataBase.setup_eu_dataframe` over an abstract sheet. -/
def setup_eu_dataframe (rows : List (List Cell)) : Except String (List EuRow) :=
  euLoop rows 0 0 rows

/-- Whether a cell would be recognized as a country marker by the EU scan
(`row[1].value in countries`). -/
def isCountryCell (c : Cell) : Bool :=
  match c.value with
  | .str s => s ∈ countries
  | _ => false

end EuDecoder

section PointInTime

/-- Whether a row passes the `df["CreatedDate"] <= date` filter of
`get_db_for_date`: a missing or unparseable `Created` becomes `NaT`,
which never satisfies `<=`. -/
def createdLE (r : Row) (d : Nat) : Bool :=
  match r.created with
  | some c => c ≤ d
  | none => false

/-- The `df.loc[df["CollectedDate"] > date, "Status"] = "missing"` rewrite
of `get_db_for_date`, applied to one retained row: a `Collected` date
strictly after the target date presents the row as missing; `NaT` never
satisfies `>`. -/
def presentAt (d : Nat) (r : Row) : Row :=
  match r.collected with
  | some c => if d < c then { r with status := "missing" } else r
  | none => r

/-- `DataBase.get_db_for_date`: drop unavailable rows, and, when a date is
given, keep only rows created on or before it and roll back collection
events dated after it. -/
def get_db_for_date (df : List Row) (d : Option Nat) : List Row :=
  let base := df.filter fun r => r.status ≠ "unavailable"
  match d with
  | none => base
  | some d => (base.filter fun r => createdLE r d).map (presentAt d)

/-- The ledger-holding state of `DataBase` (`self.df`), for expressing that
`get_db_for_date` works on a `.copy()` and never mutates the live ledger. -/
structure LedgerState where
  df : List Row
deriving DecidableEq, Repr

/-- `get_db_for_date` as a state transformer: it returns the derived view
and leaves `self.df` exactly as it was (the method copies the frame before
filtering and assigning). -/
def getDbForDateState (st : LedgerState) (d : Option Nat) :
    LedgerState × List Row :=
  (st, get_db_for_date st.df d)

end PointInTime

section Staging

/-- The identity key handed to `CoinBot.stage_coin`
(`last_found_coin`: country, year, value, source, is_special, name). -/
structure StageKey where
  country : String
  year : Int
  value : String
  source : Option String
  isSpecial : Bool
  name : Option String
deriving DecidableEq, Repr

/-- The row mask of `stage_coin`. For non-special coins:
Country, Coin Value and Year must match, the Source must match for Germany
and be null otherwise, and the row must not be special; for special coins
the Name replaces the Coin Value and the row must be special.
(`df["Country"] != "germany"` is modelled as the negation of the pandas
equality, so a null country compares unequal to \x22germany\x22.) -/
def stageMatch (k : StageKey) (row : Row) : Bool :=
  let sourceOk :=
    (pdEq row.country (some "germany") && pdEq row.source k.source) ||
    (!pdEq row.country (some "germany") && row.source.isNone)
  if !k.isSpecial then
    pdEq row.country (some k.country) &&
    pdEq row.coinValue (some k.value) &&
    pdEq row.year (some k.year) &&
    sourceOk &&
    !row.special
  else
    pdEq row.country (some k.country) &&
    pdEq row.year (some k.year) &&
    pdEq row.name k.name &&
    sourceOk &&
    row.special

/-- The positions of the rows selected by the `stage_coin` mask. -/
def findMatchIdxs (db : List Row) (k : StageKey) : List Nat :=
  (db.enum.filter fun p => stageMatch k p.2).map Prod.fst

/-- The three `self.db.df.at[...]` writes of `stage_coin` on the matched
row: `Staged = True`, `Collector = username`, `Status = "missing"`
(the status write is unconditional in the source). -/
def stageUpdate (name : String) (row : Row) : Row :=
  { row with staged := some true, collector := some name,
             status := "missing" }

/-- The result of a staging transaction: the mutated ledger and the
snapshot written by the immediately following `self.db.save_df()`. -/
structure StageOutcome where
  df : List Row
  saved : List Row
deriving DecidableEq, Repr

/-- `CoinBot.stage_coin` restricted to the ledger: assert exactly one mask
match, mutate that row, persist at once. -/
def stage_coin (db : List Row) (k : StageKey) (name : String) :
    Except String StageOutcome :=
  match findMatchIdxs db k with
  | [i] =>
      match db[i]? with
      | some row =>
          let newDf := db.set i (stageUpdate name row)
          .ok { df := newDf, saved := newDf }
      | none => .error "IndexError"
  | _ => .error "AssertionError"

end Staging

section RatioBuckets

/-- `DataBase._emoji`: the ratio-to-marker chain, with exact rational
arithmetic standing for the Python float comparisons. -/
def emoji (f : ℚ) : String :=
  if f < 0 ∨ f > 1 then "❔"
  else if f = 1 then "✅"
  else if f ≥ 0.75 then "🟢"
  else if f ≥ 0.6 then "🟡"
  else if f ≥ 0.45 then "🟠"
  else if f ≥ 0.3 then "🔴"
  else if f ≥ 0.15 then "🟤"
  else if f > 0 then "⚫"
  else if f = 0 then "✖️"
  else "❔"

/-- The ordinal of the bucket `_emoji` assigns (0 = empty bucket,
7 = complete bucket), following the same guard chain as the source. -/
def bucketIdx (f : ℚ) : ℕ :=
  if f = 1 then 7
  else if f ≥ 0.75 then 6
  else if f ≥ 0.6 then 5
  else if f ≥ 0.45 then 4
  else if f ≥ 0.3 then 3
  else if f ≥ 0.15 then 2
  else if f > 0 then 1
  else 0

/-- The marker of each ordered bucket. -/
def bucketMarker : ℕ → String
  | 7 => "✅"
  | 6 => "🟢"
  | 5 => "🟡"
  | 4 => "🟠"
  | 3 => "🔴"
  | 2 => "🟤"
  | 1 => "⚫"
  | _ => "✖️"

/-- The buckets as the claim words them: the ordered list
100%; ≥75%; ≥60%; ≥45%; ≥30%; ≥15%; >0%; exactly 0%, read as half-open
intervals partitioning [0,1]. -/
def inBucket (k : ℕ) (f : ℚ) : Bool :=
  match k with
  | 7 => decide (f = 1)
  | 6 => decide (0.75 ≤ f ∧ f < 1)
  | 5 => decide (0.6 ≤ f ∧ f < 0.75)
  | 4 => decide (0.45 ≤ f ∧ f < 0.6)
  | 3 => decide (0.3 ≤ f ∧ f < 0.45)
  | 2 => decide (0.15 ≤ f ∧ f < 0.3)
  | 1 => decide (0 < f ∧ f < 0.15)
  | 0 => decide (f = 0)
  | _ => false

end RatioBuckets

section SampleRows

/-- A sample previous-snapshot row (France, 1999, 1 cent) with a chosen
status and provenance, for concrete instantiations. -/
def mkOld (status : String) (created collected : Option Nat) : Row :=
  { country := some "france", year := some 1999, coinValue := some "1 cent",
    source := none, name := none, special := false, amount := 7,
    status := status, created := created, collected := collected,
    collector := none, staged := none }

/-- A freshly decoded row with the same identity key as `mkOld`. -/
def mkFresh (status : String) : FreshRow :=
  { country := some "france", year := some 1999, coinValue := some "1 cent",
    source := none, name := none, special := false, amount := 7,
    status := status }

/-- The Scenario 1 row of the spec: (Germany, 2021, 20 cent, source d,
Special false, Status missing, Amount 500). -/
def gerStageRow : Row :=
  { country := some "germany", year := some 2021, coinValue := some "20 cent",
    source := some "d", name := none, special := false, amount := 500,
    status := "missing", created := some 1, collected := none,
    collector := none, staged := none }

/-- The identity key of `gerStageRow` as handed to `stage_coin`. -/
def gerStageKey : StageKey :=
  { country := "germany", year := 2021, value := "20 cent",
    source := some "d", isSpecial := false, name := none }

/-- A small concrete ledger with one missing, one unavailable and one
collected row, for point-in-time instantiations. -/
def cleanDb : List Row :=
  [mkOld "missing" (some 5) none, mkOld "unavailable" (some 5) none,
   mkOld "collected" (some 5) (some 20)]

/-- A sheet cell that is not a country marker. -/
def plainCell : Cell := { value := .str "x", color := .s "00000000" }

/-- A sheet cell holding the country marker "France". -/
def franceCell : Cell := { value := .str "France", color := .s "00000000" }

end SampleRows

section AlignTheorems

/-- Whatever branch `alignRow` takes, a successfully aligned row has null
`Staged` and `Collector` (the columns are inserted as `pd.NA` and `align`
never writes them). -/
lemma alignRow_ok_fields (today : Nat) (prev : List Row) (r : FreshRow)
    (row : Row) (h : alignRow today prev r = .ok row) :
    row.staged = none ∧ row.collector = none := by
  unfold alignRow at h
  split at h
  · cases h; exact ⟨rfl, rfl⟩
  · cases h; exact ⟨rfl, rfl⟩
  · split_ifs at h <;> (cases h; exact ⟨rfl, rfl⟩)

/-- Every row of a successful `align` pass is the `alignRow` image of some
fresh row. -/
lemma align_ok_sources (today : Nat) (prev : List Row) :
    ∀ (fresh : List FreshRow) (res : List Row),
      align today prev fresh = .ok res →
      ∀ row ∈ res, ∃ r, alignRow today prev r = .ok row := by
  intro fresh
  induction fresh with
  | nil =>
      intro res h row hrow
      simp [align] at h
      subst h
      simp at hrow
  | cons a l ih =>
      intro res h row hrow
      simp only [align] at h
      cases ha : alignRow today prev a with
      | error e => rw [ha] at h; simp at h
      | ok v =>
          rw [ha] at h
          cases hl : align today prev l with
          | error e => rw [hl] at h; simp at h
          | ok vs =>
              rw [hl] at h
              simp at h
              subst h
              rcases List.mem_cons.mp hrow with h1 | h2
              · exact ⟨a, by rw [ha, h1]⟩
              · exact ih vs hl row h2

/-- If any fresh row fails its `alignRow` step, the whole `align` pass
fails (the `ValueError` propagates). -/
lemma align_error_of_row_error (today : Nat) (prev : List Row) :
    ∀ (fresh : List FreshRow) (r : FreshRow), r ∈ fresh →
      (∃ e, alignRow today prev r = .error e) →
      ∃ msg, align today prev fresh = .error msg := by
  intro fresh
  induction fresh with
  | nil => intro r hr; simp at hr
  | cons a l ih =>
      intro r hr ⟨e, he⟩
      rcases List.mem_cons.mp hr with h1 | h2
      · subst h1
        exact ⟨e, by simp [align, he]⟩
      · cases ha : alignRow today prev a with
        | error e2 => exact ⟨e2, by simp [align, ha]⟩
        | ok v =>
            rcases ih r h2 ⟨e, he⟩ with ⟨msg, hmsg⟩
            exact ⟨msg, by simp [align, ha, hmsg]⟩

/-- C1: if a freshly decoded row has exactly one identity-key match in the
previous snapshot and its decoded status diverges from the previous status
in any way other than a transition into "collected", the reconciliation
pass raises a fatal error and the previously-visible ledger reference is
not replaced. -/
theorem align_status_regression_fatal
    (today : Nat) (prev : List Row) (fresh : List FreshRow) (r : FreshRow)
    (old : Row) (st : BotState)
    (hmem : r ∈ fresh)
    (hone : prev.filter (identityMatch r) = [old])
    (hdiv : r.status ≠ old.status)
    (hnotcol : r.status ≠ "collected") :
    (∃ msg, align today prev fresh = .error msg) ∧
    reloadData st (align today prev fresh) = st := by
  have herr : alignRow today prev r = .error "Status divergence" := by
    unfold alignRow
    rw [hone]
    simp [hdiv, hnotcol]
  obtain ⟨msg, hmsg⟩ :=
    align_error_of_row_error today prev fresh r hmem ⟨_, herr⟩
  exact ⟨⟨msg, hmsg⟩, by simp [reloadData, hmsg]⟩

/-- Witness for C1 (Scenario 3 of the spec): a row previously collected
that is now decoded missing makes reconciliation fail and leaves the
ledger reference untouched. -/
theorem align_status_regression_fatal_witness :
    (∃ msg, align 100 [mkOld "collected" (some 5) (some 6)]
        [mkFresh "missing"] = .error msg) ∧
    reloadData ⟨[mkOld "collected" (some 5) (some 6)]⟩
        (align 100 [mkOld "collected" (some 5) (some 6)] [mkFresh "missing"]) =
      ⟨[mkOld "collected" (some 5) (some 6)]⟩ :=
  align_status_regression_fatal 100 _ _ (mkFresh "missing")
    (mkOld "collected" (some 5) (some 6)) _ (by simp) (by rfl)
    (by decide) (by decide)

/-- C2: with exactly one identity-key match, an unchanged status carries
the previous `Collected` and `Created` dates over, and a transition into
"collected" stamps `Collected = today` while carrying `Created` over. -/
theorem align_single_match_carryover
    (today : Nat) (prev : List Row) (r : FreshRow) (old : Row)
    (hone : prev.filter (identityMatch r) = [old]) :
    (r.status = old.status →
      alignRow today prev r =
        .ok { r.withNA with
          created := old.created, collected := old.collected }) ∧
    (old.status ≠ "collected" → r.status = "collected" →
      alignRow today prev r =
        .ok { r.withNA with
          created := old.created, collected := some today }) := by
  constructor
  · intro h
    unfold alignRow
    rw [hone]
    simp [h]
  · intro h1 h2
    have hne : ¬ r.status = old.status := by
      rw [h2]; exact fun hc => h1 hc.symm
    unfold alignRow
    rw [hone]
    simp [hne, h2, h1]
    exact fun hc => absurd (h2.trans hc) hne

/-- Witness for C2 (Scenario 2 of the spec): (France, 1999, 1 cent)
previously missing and now decoded collected gets `Collected = today` and
carries `Created` over; an unchanged status carries both dates over. -/
theorem align_single_match_carryover_witness :
    (alignRow 100 [mkOld "missing" (some 5) (some 3)] (mkFresh "missing") =
      .ok { (mkFresh "missing").withNA with
        created := some 5, collected := some 3 }) ∧
    (alignRow 100 [mkOld "missing" (some 5) none] (mkFresh "collected") =
      .ok { (mkFresh "collected").withNA with
        created := some 5, collected := some 100 }) :=
  ⟨(align_single_match_carryover 100 _ _ _ (by rfl)).1 rfl,
   (align_single_match_carryover 100 _ _ _ (by rfl)).2 (by decide) rfl⟩

/-- Counterexample to C6 as stated: a fresh row with two identity-key
matches in the previous snapshot is left with a null `Created` date, not
with `Created = today` — yet the pass does continue and succeed. -/
theorem align_multi_match_created_counterexample :
    align 100 [mkOld "missing" (some 5) none, mkOld "missing" (some 5) none]
        [mkFresh "missing"] = .ok [(mkFresh "missing").withNA] ∧
    ((mkFresh "missing").withNA).created = none ∧
    ((mkFresh "missing").withNA).created ≠ some 100 :=
  ⟨rfl, rfl, by simp [FreshRow.withNA]⟩

/-- C6 as amended: with more than one identity-key match the row keeps the
decoder defaults — `Created`, `Collected`, `Staged` and `Collector` all
left null (`Created` is *not* stamped with today) — and the pass continues
for the remaining rows without aborting. -/
theorem align_multi_match_continues
    (today : Nat) (prev : List Row) (r : FreshRow) (rest : List FreshRow)
    (o1 o2 : Row) (tl : List Row)
    (hmulti : prev.filter (identityMatch r) = o1 :: o2 :: tl) :
    alignRow today prev r = .ok r.withNA ∧
    r.withNA.created = none ∧ r.withNA.collected = none ∧
    r.withNA.staged = none ∧ r.withNA.collector = none ∧
    ∀ res, align today prev rest = .ok res →
      align today prev (r :: rest) = .ok (r.withNA :: res) := by
  have h1 : alignRow today prev r = .ok r.withNA := by
    unfold alignRow
    rw [hmulti]
  refine ⟨h1, rfl, rfl, rfl, rfl, ?_⟩
  intro res hres
  simp [align, h1, hres]

/-- Witness for the amended C6: a concrete two-match row is kept with the
decoder defaults and the pass finishes for the remaining rows. -/
theorem align_multi_match_continues_witness :
    alignRow 100 [mkOld "missing" (some 5) none, mkOld "missing" (some 5) none]
        (mkFresh "missing") = .ok (mkFresh "missing").withNA ∧
    align 100 [mkOld "missing" (some 5) none, mkOld "missing" (some 5) none]
        [mkFresh "missing", mkFresh "collected"] =
      .ok [(mkFresh "missing").withNA, (mkFresh "collected").withNA] := by
  have h := align_multi_match_continues 100
    [mkOld "missing" (some 5) none, mkOld "missing" (some 5) none]
    (mkFresh "missing") [mkFresh "collected"] _ _ _ (by rfl)
  exact ⟨h.1, h.2.2.2.2.2 [(mkFresh "collected").withNA] (by rfl)⟩

/-- C10: after every successful reconciliation pass, the `Staged` and
`Collector` fields of every row in the new ledger are null, whatever they
were in the previous snapshot. -/
theorem align_never_carries_staged_collector
    (today : Nat) (prev : List Row) (fresh : List FreshRow) (res : List Row)
    (h : align today prev fresh = .ok res) :
    ∀ row ∈ res, row.staged = none ∧ row.collector = none := by
  intro row hrow
  obtain ⟨r, hr⟩ := align_ok_sources today prev fresh res h row hrow
  exact alignRow_ok_fields today prev r row hr

/-- Witness for C10 at a concrete reconciliation pass. -/
theorem align_never_carries_staged_collector_witness :
    ({ (mkFresh "collected").withNA with
        created := some 5, collected := some 100 } : Row).staged = none ∧
    ({ (mkFresh "collected").withNA with
        created := some 5, collected := some 100 } : Row).collector = none :=
  align_never_carries_staged_collector 100
    [{ mkOld "missing" (some 5) none with
        staged := some true, collector := some "bob" }]
    [mkFresh "collected"] _ (by rfl) _ (by simp [mkOld])

end AlignTheorems

/-- Claim C3: staging a row with exactly one identity-key match sets
`Staged = true` and `Collector = name` on it, promotes a previously
unavailable status to "missing", keeps a previously missing status as
"missing" (the source writes `Status = "missing"` unconditionally),
preserves the no-staged-and-collected invariant over the whole ledger,
and persists the snapshot immediately after the mutation
(`out.saved = out.df`). -/
theorem stage_coin_spec
    (db : List Row) (k : StageKey) (name : String) (i : Nat) (row : Row)
    (hinv : ∀ q ∈ db, ¬(q.staged = some true ∧ q.status = "collected"))
    (hidx : findMatchIdxs db k = [i])
    (hrow : db[i]? = some row) :
    ∃ out, stage_coin db k name = .ok out ∧
      out.df = db.set i (stageUpdate name row) ∧
      (stageUpdate name row).staged = some true ∧
      (stageUpdate name row).collector = some name ∧
      (row.status = "unavailable" → (stageUpdate name row).status = "missing") ∧
      (row.status = "missing" → (stageUpdate name row).status = "missing") ∧
      (∀ q ∈ out.df, ¬(q.staged = some true ∧ q.status = "collected")) ∧
      out.saved = out.df := by
  have hstage : stage_coin db k name =
      .ok { df := db.set i (stageUpdate name row),
            saved := db.set i (stageUpdate name row) } := by
    unfold stage_coin
    rw [hidx]
    simp [hrow]
  refine ⟨_, hstage, rfl, rfl, rfl, fun _ => rfl, fun _ => rfl, ?_, rfl⟩
  intro q hq
  rcases List.mem_or_eq_of_mem_set hq with hmem | heq
  · exact hinv q hmem
  · subst heq
    simp [stageUpdate]

/-- Witness for C3 (Scenario 1 of the spec): the (Germany, 2021, 20 cent,
source d) row staged by "Alice". -/
theorem stage_coin_spec_witness :
    ∃ out, stage_coin [gerStageRow, mkOld "collected" (some 1) (some 2)]
        gerStageKey "Alice" = .ok out ∧
      out.df = [gerStageRow, mkOld "collected" (some 1) (some 2)].set 0
        (stageUpdate "Alice" gerStageRow) ∧
      (stageUpdate "Alice" gerStageRow).staged = some true ∧
      (stageUpdate "Alice" gerStageRow).collector = some "Alice" ∧
      (gerStageRow.status = "unavailable" →
        (stageUpdate "Alice" gerStageRow).status = "missing") ∧
      (gerStageRow.status = "missing" →
        (stageUpdate "Alice" gerStageRow).status = "missing") ∧
      (∀ q ∈ out.df, ¬(q.staged = some true ∧ q.status = "collected")) ∧
      out.saved = out.df :=
  stage_coin_spec [gerStageRow, mkOld "collected" (some 1) (some 2)]
    gerStageKey "Alice" 0 gerStageRow (by decide) (by rfl) (by rfl)

/-- The point-in-time rollback never changes a row's `Created` date. -/
lemma presentAt_created (d : Nat) (s : Row) :
    (presentAt d s).created = s.created := by
  unfold presentAt
  split
  · split <;> rfl
  · rfl

/-- Claim C4: the point-in-time view for a target date contains only rows
created on or before the date; every view row derives from a live row that
is not "unavailable" (so the rollback never touches an unavailable row),
with its status presented as "missing" exactly when its `Collected` date
is after the target date, and unchanged otherwise; and the live ledger is
returned untouched (the method works on a copy). -/
theorem get_db_for_date_spec (df : List Row) (d : Nat) :
    (∀ r ∈ get_db_for_date df (some d), ∃ c, r.created = some c ∧ c ≤ d) ∧
    (∀ r ∈ get_db_for_date df (some d),
       ∃ s ∈ df, s.status ≠ "unavailable" ∧ createdLE s d = true ∧
         r = presentAt d s) ∧
    (∀ s ∈ df, s.status ≠ "unavailable" → createdLE s d = true →
       presentAt d s ∈ get_db_for_date df (some d)) ∧
    (∀ s : Row, ∀ c : Nat, s.collected = some c → d < c →
       (presentAt d s).status = "missing") ∧
    (∀ s : Row, (∀ c : Nat, s.collected = some c → ¬ d < c) →
       presentAt d s = s) ∧
    (∀ st : LedgerState, (getDbForDateState st (some d)).1 = st) := by
  have hmem : ∀ r, r ∈ get_db_for_date df (some d) ↔
      ∃ s ∈ df, s.status ≠ "unavailable" ∧ createdLE s d = true ∧
        presentAt d s = r := by
    intro r
    simp only [get_db_for_date, List.mem_map, List.mem_filter,
      Bool.and_eq_true, decide_eq_true_eq, ne_eq]
    constructor
    · rintro ⟨s, ⟨⟨hs, hsu⟩, hcle⟩, hps⟩
      exact ⟨s, hs, hsu, hcle, hps⟩
    · rintro ⟨s, hs, hsu, hcle, hps⟩
      exact ⟨s, ⟨⟨hs, hsu⟩, hcle⟩, hps⟩
  refine ⟨?_, ?_, ?_, ?_, ?_, fun _ => rfl⟩
  · intro r hr
    obtain ⟨s, hs, hsu, hcle, hps⟩ := (hmem r).mp hr
    unfold createdLE at hcle
    rcases hc : s.created with _ | c
    · rw [hc] at hcle; simp at hcle
    · rw [hc] at hcle
      simp at hcle
      refine ⟨c, ?_, hcle⟩
      rw [← hps, presentAt_created, hc]
  · intro r hr
    obtain ⟨s, hs, hsu, hcle, hps⟩ := (hmem r).mp hr
    exact ⟨s, hs, hsu, hcle, hps.symm⟩
  · intro s hs hsu hcle
    exact (hmem (presentAt d s)).mpr ⟨s, hs, hsu, hcle, rfl⟩
  · intro s c hc hlt
    unfold presentAt
    rw [hc]
    simp [hlt]
  · intro s h
    unfold presentAt
    rcases hc : s.collected with _ | c
    · rfl
    · simp [h c hc]

/-- Witness for C4 at a concrete ledger: a row collected at date 20 is
presented as missing in the view at date 10, and the live ledger state is
unchanged. -/
theorem get_db_for_date_spec_witness :
    presentAt 10 (mkOld "collected" (some 5) (some 20)) ∈
      get_db_for_date cleanDb (some 10) ∧
    (presentAt 10 (mkOld "collected" (some 5) (some 20))).status =
      "missing" ∧
    (getDbForDateState ⟨cleanDb⟩ (some 10)).1 = ⟨cleanDb⟩ :=
  ⟨(get_db_for_date_spec cleanDb 10).2.2.1 _ (by simp [cleanDb])
      (by decide) (by decide),
   (get_db_for_date_spec cleanDb 10).2.2.2.1 _ 20 rfl (by decide),
   (get_db_for_date_spec cleanDb 10).2.2.2.2.2 ⟨cleanDb⟩⟩

/-- Counterexample to C5 as stated: on the special-coins sheet a numeric
cell value is multiplied by 1000 (`int(row[3].value * 1000)`), not divided
by 1000 as on the other two sheets. -/
theorem sonder_amount_counterexample :
    sonderAmount (.int 2) = .ok 2000 ∧
    (2000 : Int) ≠ truncDiv 2 1000 ∧
    euAmount (.int 2) = truncDiv 2 1000 := by
  refine ⟨rfl, by decide, rfl⟩

/-- Claim C5 as amended: on Grid A and Grid B, a numeric cell value is
divided by 1000 (truncated), the placeholders empty, "---" and "???"
decode to 0 and any other non-numeric value to the sentinel -1; on the
special-coins sheet, a numeric cell value is instead multiplied by 1000
(and there is no placeholder handling). -/
theorem amount_normalization_amended :
    (∀ v, gerAmount v = euAmount v) ∧
    (∀ n : Int, euAmount (.int n) = truncDiv n 1000) ∧
    (euAmount .empty = 0 ∧ euAmount (.str "---") = 0 ∧
     euAmount (.str "???") = 0) ∧
    (∀ s, pyIsDigit s = true → euAmount (.str s) = truncDiv (s.toNat!) 1000) ∧
    (∀ s, pyIsDigit s = false → s ≠ "---" → s ≠ "???" →
       euAmount (.str s) = -1) ∧
    (∀ n : Int, sonderAmount (.int n) = .ok (n * 1000)) := by
  refine ⟨fun v => rfl, ?_, ⟨rfl, rfl, rfl⟩, ?_, ?_, fun n => rfl⟩
  · intro n
    unfold euAmount placeholderToZero
    rw [if_neg (by simp)]
    rfl
  · intro s hs
    have h1 : s ≠ "---" := fun h => by rw [h] at hs; simp [pyIsDigit] at hs
    have h2 : s ≠ "???" := fun h => by rw [h] at hs; simp [pyIsDigit] at hs
    unfold euAmount placeholderToZero
    rw [if_neg (by simp [h1, h2])]
    simp [convert_to_thousands, hs]
  · intro s hs h1 h2
    unfold euAmount placeholderToZero
    rw [if_neg (by simp [h1, h2])]
    simp [convert_to_thousands, hs]

/-- Witness for the amended C5 at concrete cell values. -/
theorem amount_normalization_amended_witness :
    gerAmount (.str "abc") = euAmount (.str "abc") ∧
    euAmount (.int 1500) = truncDiv 1500 1000 ∧
    euAmount (.str "123456") = truncDiv ("123456".toNat!) 1000 ∧
    euAmount (.str "abc") = -1 ∧
    sonderAmount (.int 500) = .ok 500000 :=
  ⟨amount_normalization_amended.1 _,
   amount_normalization_amended.2.1 1500,
   amount_normalization_amended.2.2.2.1 "123456" (by decide),
   amount_normalization_amended.2.2.2.2.1 "abc" (by decide) (by decide)
     (by decide),
   amount_normalization_amended.2.2.2.2.2 500⟩

/-- Counterexample to C7 as stated: an unrecognized fill color decodes to
"unknown", which is not in {unavailable, missing, collected}. -/
theorem cell_status_unknown_counterexample :
    cellStatus (.s "FFFF0000") = "unknown" ∧
    "unknown" ∉ (["unavailable", "missing", "collected"] : List String) := by
  exact ⟨rfl, by decide⟩

/-- Every decodable color maps into the four-value status range. -/
lemma cellStatus_mem_range (c : ColorId) :
    cellStatus c ∈ (["unavailable", "missing", "collected", "unknown"] :
      List String) := by
  unfold cellStatus
  split <;> simp

/-- A decoded Grid A cell's status is always a `cellStatus` value. -/
lemma decodeEuCell_status (rows : List (List Cell)) (nc : Nat)
    (country : String) (year : Int) (yi vi : Nat) (cv : String) (row : EuRow)
    (h : decodeEuCell rows nc country year yi vi cv = .ok row) :
    ∃ col, row.status = cellStatus col := by
  unfold decodeEuCell at h
  split at h
  · simp at h
  · split at h
    · simp at h
    · cases h
      exact ⟨_, rfl⟩

/-- Statuses produced for one year of a country block come from
`cellStatus`. -/
lemma decodeEuYearAux_status (rows : List (List Cell)) (nc : Nat)
    (country : String) (year : Int) (yi : Nat) :
    ∀ (pairs : List (Nat × String)) (res : List EuRow),
      decodeEuYearAux rows nc country year yi pairs = .ok res →
      ∀ row ∈ res, ∃ col, row.status = cellStatus col := by
  intro pairs
  induction pairs with
  | nil =>
      intro res h row hrow
      simp [decodeEuYearAux] at h
      subst h
      simp at hrow
  | cons p rest ih =>
      intro res h row hrow
      obtain ⟨vIdx, cv⟩ := p
      simp only [decodeEuYearAux] at h
      cases hc : decodeEuCell rows nc country year yi vIdx cv with
      | error e => rw [hc] at h; simp at h
      | ok v =>
          rw [hc] at h
          cases ht : decodeEuYearAux rows nc country year yi rest with
          | error e => rw [ht] at h; simp at h
          | ok vs =>
              rw [ht] at h
              simp at h
              subst h
              rcases List.mem_cons.mp hrow with h1 | h2
              · subst h1
                exact decodeEuCell_status rows nc country year yi vIdx cv row hc
              · exact ih vs ht row h2

/-- Statuses produced for a whole country block come from `cellStatus`. -/
lemma decodeEuBlockAux_status (rows : List (List Cell)) (nc : Nat)
    (country : String) :
    ∀ (pairs : List (Nat × Int)) (res : List EuRow),
      decodeEuBlockAux rows nc country pairs = .ok res →
      ∀ row ∈ res, ∃ col, row.status = cellStatus col := by
  intro pairs
  induction pairs with
  | nil =>
      intro res h row hrow
      simp [decodeEuBlockAux] at h
      subst h
      simp at hrow
  | cons p rest ih =>
      intro res h row hrow
      obtain ⟨yIdx, y⟩ := p
      simp only [decodeEuBlockAux] at h
      cases hc : decodeEuYear rows nc country y yIdx with
      | error e => rw [hc] at h; simp at h
      | ok v =>
          rw [hc] at h
          cases ht : decodeEuBlockAux rows nc country rest with
          | error e => rw [ht] at h; simp at h
          | ok vs =>
              rw [ht] at h
              simp at h
              subst h
              rcases List.mem_append.mp hrow with h1 | h2
              · exact decodeEuYearAux_status rows nc country y yIdx _ v hc row h1
              · exact ih vs ht row h2

/-- Statuses produced by the whole EU sheet scan come from `cellStatus`. -/
lemma euLoop_status (rows : List (List Cell)) :
    ∀ (rem : List (List Cell)) (i nc : Nat) (res : List EuRow),
      euLoop rows i nc rem = .ok res →
      ∀ row ∈ res, ∃ col, row.status = cellStatus col := by
  intro rem
  induction rem with
  | nil =>
      intro i nc res h row hrow
      simp [euLoop] at h
      subst h
      simp at hrow
  | cons r rest ih =>
      intro i nc res h row hrow
      simp only [euLoop] at h
      split at h
      · simp at h
      · split at h
        · split at h
          · split at h
            · simp at h
            · split at h
              · simp at h
              · split at h
                · simp at h
                · rename_i _ _ _ _ s _ _ _ _ _ _ block heqB _ tail heqT
                  cases h
                  rcases List.mem_append.mp hrow with h1 | h2
                  · unfold decodeEuBlock at heqB
                    exact decodeEuBlockAux_status rows nc s _ block heqB row h1
                  · exact ih (i + 1) (nc + 1) tail heqT row h2
          · exact ih (i + 1) nc res h row hrow
        · exact ih (i + 1) nc res h row hrow

/-- Claim C7 as amended: every fill color decodes into
{unavailable, missing, collected, unknown}; an unrecognized color decodes
to "unknown"; and every row of the decoded EU ledger has its status in
that four-value set — not in the three-value set the claim states. -/
theorem cell_status_range_amended :
    (∀ c, cellStatus c ∈ (["unavailable", "missing", "collected", "unknown"] :
        List String)) ∧
    (∀ c, knownColor c = false → cellStatus c = "unknown") ∧
    (∀ (rows : List (List Cell)) (res : List EuRow),
       setup_eu_dataframe rows = .ok res →
       ∀ row ∈ res,
         row.status ∈ (["unavailable", "missing", "collected", "unknown"] :
           List String)) := by
  refine ⟨cellStatus_mem_range, ?_, ?_⟩
  · intro c hc
    unfold cellStatus
    split
    · exfalso; simp [knownColor] at hc
    · exfalso; simp [knownColor] at hc
    · exfalso; simp [knownColor] at hc
    · exfalso; simp [knownColor] at hc
    · exfalso; simp [knownColor] at hc
    · exfalso; simp [knownColor] at hc
    · rfl
  · intro rows res h row hrow
    obtain ⟨col, hcol⟩ := euLoop_status rows rows 0 0 res h row hrow
    rw [hcol]
    exact cellStatus_mem_range col

/-- Witness for the amended C7 at a concrete unrecognized color. -/
theorem cell_status_range_amended_witness :
    cellStatus (.s "FFFF0000") ∈
      (["unavailable", "missing", "collected", "unknown"] : List String) ∧
    cellStatus (.s "FFFF0000") = "unknown" :=
  ⟨cell_status_range_amended.1 _,
   cell_status_range_amended.2.1 _ (by decide)⟩

/-- Counterexample to C8 as stated: a workbook whose rows contain no
country marker decodes without raising, returning the empty row set
instead of failing fatally. -/
theorem eu_missing_markers_counterexample :
    setup_eu_dataframe
        [[plainCell, plainCell], [plainCell, plainCell],
         [plainCell, plainCell]] = .ok [] ∧
    isCountryCell plainCell = false := ⟨rfl, rfl⟩

/-- The EU scan over marker-free rows never raises and yields no rows. -/
lemma euLoop_no_marker (rows : List (List Cell)) :
    ∀ (rem : List (List Cell)) (i nc : Nat),
      (∀ row ∈ rem, ∃ c, row[1]? = some c ∧ isCountryCell c = false) →
      euLoop rows i nc rem = .ok [] := by
  intro rem
  induction rem with
  | nil => intro i nc _; rfl
  | cons row rest ih =>
      intro i nc h
      obtain ⟨c, hc1, hc2⟩ := h row (List.mem_cons_self row rest)
      have hcell : getCell row 1 = .ok c := by
        unfold getCell
        rw [hc1]
      have hrest : ∀ q ∈ rest, ∃ c, q[1]? = some c ∧ isCountryCell c = false :=
        fun q hq => h q (List.mem_cons_of_mem row hq)
      obtain ⟨cv, ccol⟩ := c
      unfold euLoop
      rw [hcell]
      cases cv with
      | int n => exact ih (i + 1) nc hrest
      | empty => exact ih (i + 1) nc hrest
      | str s =>
          have hs : s ∉ countries := by
            simpa [isCountryCell] using hc2
          simp only [if_neg hs]
          exact ih (i + 1) nc hrest

/-- Claim C8 as amended: a sheet with absent country markers (and rows
wide enough to be scanned) decodes silently to the empty row set, while a
sheet whose structure is truncated after a country marker (no subsequent
row to serve as year header or coin block) raises an index error. -/
theorem eu_decoder_structure_amended :
    (∀ rows : List (List Cell),
       (∀ row ∈ rows, ∃ c, row[1]? = some c ∧ isCountryCell c = false) →
       setup_eu_dataframe rows = .ok []) ∧
    (∀ (row0 : List Cell) (c : Cell) (s : String),
       row0[1]? = some c → c.value = .str s → s ∈ countries →
       setup_eu_dataframe [row0] = .error "IndexError") := by
  constructor
  · intro rows h
    exact euLoop_no_marker rows rows 0 0 h
  · intro row0 c s h1 h2 h3
    have hcell : getCell row0 1 = .ok c := by
      unfold getCell
      rw [h1]
    obtain ⟨cv, ccol⟩ := c
    cases h2
    unfold setup_eu_dataframe euLoop
    rw [hcell]
    simp only [if_pos h3]
    rfl

/-- Witness for the amended C8 at two concrete sheets. -/
theorem eu_decoder_structure_amended_witness :
    setup_eu_dataframe [[plainCell, plainCell]] = .ok [] ∧
    setup_eu_dataframe [[plainCell, franceCell]] = .error "IndexError" :=
  ⟨eu_decoder_structure_amended.1 [[plainCell, plainCell]]
      (by intro row hrow
          simp at hrow
          subst hrow
          exact ⟨plainCell, rfl, rfl⟩),
   eu_decoder_structure_amended.2 [plainCell, franceCell] franceCell "France"
      rfl rfl (by decide)⟩

/-- The bucket ordinal never exceeds 7. -/
lemma bucketIdx_le_seven (a : ℚ) : bucketIdx a ≤ 7 := by
  unfold bucketIdx
  split_ifs <;> norm_num

/-- Below 100% the bucket ordinal is at most 6. -/
lemma bucketIdx_le_six (a : ℚ) (h : a < 1) : bucketIdx a ≤ 6 := by
  unfold bucketIdx
  split_ifs <;> first | (exfalso; linarith) | norm_num

/-- Below 75% the bucket ordinal is at most 5. -/
lemma bucketIdx_le_five (a : ℚ) (h : a < 0.75) : bucketIdx a ≤ 5 := by
  unfold bucketIdx
  split_ifs <;> first | (exfalso; linarith) | norm_num

/-- Below 60% the bucket ordinal is at most 4. -/
lemma bucketIdx_le_four (a : ℚ) (h : a < 0.6) : bucketIdx a ≤ 4 := by
  unfold bucketIdx
  split_ifs <;> first | (exfalso; linarith) | norm_num

/-- Below 45% the bucket ordinal is at most 3. -/
lemma bucketIdx_le_three (a : ℚ) (h : a < 0.45) : bucketIdx a ≤ 3 := by
  unfold bucketIdx
  split_ifs <;> first | (exfalso; linarith) | norm_num

/-- Below 30% the bucket ordinal is at most 2. -/
lemma bucketIdx_le_two (a : ℚ) (h : a < 0.3) : bucketIdx a ≤ 2 := by
  unfold bucketIdx
  split_ifs <;> first | (exfalso; linarith) | norm_num

/-- Below 15% the bucket ordinal is at most 1. -/
lemma bucketIdx_le_one (a : ℚ) (h : a < 0.15) : bucketIdx a ≤ 1 := by
  unfold bucketIdx
  split_ifs <;> first | (exfalso; linarith) | norm_num

/-- At or below 0 the bucket ordinal is 0. -/
lemma bucketIdx_le_zero (a : ℚ) (h : a ≤ 0) : bucketIdx a ≤ 0 := by
  unfold bucketIdx
  split_ifs <;> first | (exfalso; linarith) | norm_num

/-- The bucket ordinal is monotone on ratios bounded by 1. -/
lemma bucketIdx_mono (a b : ℚ) (hab : a ≤ b) (hb1 : b ≤ 1) :
    bucketIdx a ≤ bucketIdx b := by
  by_cases h1 : b = 1
  · rw [show bucketIdx b = 7 from by simp [bucketIdx, h1]]
    exact bucketIdx_le_seven a
  by_cases h75 : 0.75 ≤ b
  · rw [show bucketIdx b = 6 from by simp [bucketIdx, h1, h75]]
    exact bucketIdx_le_six a (lt_of_le_of_lt hab (lt_of_le_of_ne hb1 h1))
  by_cases h6 : 0.6 ≤ b
  · rw [show bucketIdx b = 5 from by simp [bucketIdx, h1, h75, h6]]
    exact bucketIdx_le_five a (lt_of_le_of_lt hab (not_le.mp h75))
  by_cases h45 : 0.45 ≤ b
  · rw [show bucketIdx b = 4 from by simp [bucketIdx, h1, h75, h6, h45]]
    exact bucketIdx_le_four a (lt_of_le_of_lt hab (not_le.mp h6))
  by_cases h3 : 0.3 ≤ b
  · rw [show bucketIdx b = 3 from by simp [bucketIdx, h1, h75, h6, h45, h3]]
    exact bucketIdx_le_three a (lt_of_le_of_lt hab (not_le.mp h45))
  by_cases h15 : 0.15 ≤ b
  · rw [show bucketIdx b = 2 from by
      simp [bucketIdx, h1, h75, h6, h45, h3, h15]]
    exact bucketIdx_le_two a (lt_of_le_of_lt hab (not_le.mp h3))
  by_cases hpos : 0 < b
  · rw [show bucketIdx b = 1 from by
      simp [bucketIdx, h1, h75, h6, h45, h3, h15, hpos]]
    exact bucketIdx_le_one a (lt_of_le_of_lt hab (not_le.mp h15))
  · rw [show bucketIdx b = 0 from by
      simp [bucketIdx, h1, h75, h6, h45, h3, h15, hpos]]
    exact bucketIdx_le_zero a (hab.trans (not_lt.mp hpos))

/-- On [0,1] the `_emoji` chain returns exactly the marker of the bucket
ordinal. -/
lemma emoji_eq_marker (a : ℚ) (h0 : 0 ≤ a) (h1 : a ≤ 1) :
    emoji a = bucketMarker (bucketIdx a) := by
  unfold emoji bucketIdx
  rw [if_neg (by push_neg; exact ⟨h0, h1⟩)]
  split_ifs with h2 h3 h4 h5 h6 h7 h8 h9 <;> try rfl
  exact absurd (le_antisymm (not_lt.mp h8) h0) h9

/-- On [0,1] every ratio lies in the bucket `_emoji` assigns it. -/
lemma inBucket_of_bucketIdx (a : ℚ) (h0 : 0 ≤ a) (h1 : a ≤ 1) :
    inBucket (bucketIdx a) a = true := by
  unfold bucketIdx
  split_ifs with h2 h3 h4 h5 h6 h7 h8
  · simp [inBucket, h2]
  · simp only [inBucket, decide_eq_true_eq]
    exact ⟨h3, lt_of_le_of_ne h1 h2⟩
  · simp only [inBucket, decide_eq_true_eq]
    exact ⟨h4, not_le.mp h3⟩
  · simp only [inBucket, decide_eq_true_eq]
    exact ⟨h5, not_le.mp h4⟩
  · simp only [inBucket, decide_eq_true_eq]
    exact ⟨h6, not_le.mp h5⟩
  · simp only [inBucket, decide_eq_true_eq]
    exact ⟨h7, not_le.mp h6⟩
  · simp only [inBucket, decide_eq_true_eq]
    exact ⟨h8, not_le.mp h7⟩
  · simp only [inBucket, decide_eq_true_eq]
    exact le_antisymm (not_lt.mp h8) h0

/-- Claim C9: on [0,1] the ratio-to-marker mapping realizes the ordered
bucket partition (each ratio lies in exactly one of the 8 claim buckets,
namely the one whose marker `_emoji` renders) and the bucket ordinal is
monotone in the ratio. -/
theorem ratio_marker_spec :
    ∀ a : ℚ, 0 ≤ a → a ≤ 1 →
      emoji a = bucketMarker (bucketIdx a) ∧
      bucketIdx a < 8 ∧
      (∀ k, k < 8 → (inBucket k a = true ↔ k = bucketIdx a)) ∧
      (∀ b : ℚ, a ≤ b → b ≤ 1 → bucketIdx a ≤ bucketIdx b) := by
  intro a h0 h1
  refine ⟨emoji_eq_marker a h0 h1, ?_, ?_, fun b hab hb1 =>
    bucketIdx_mono a b hab hb1⟩
  · have := bucketIdx_le_seven a
    omega
  · intro k hk
    constructor
    · intro hki
      interval_cases k
      · simp only [inBucket, decide_eq_true_eq] at hki
        unfold bucketIdx
        split_ifs <;> first | rfl | (exfalso; linarith)
      · simp only [inBucket, decide_eq_true_eq] at hki
        obtain ⟨hl, hr⟩ := hki
        unfold bucketIdx
        split_ifs <;> first | rfl | (exfalso; linarith)
      · simp only [inBucket, decide_eq_true_eq] at hki
        obtain ⟨hl, hr⟩ := hki
        unfold bucketIdx
        split_ifs <;> first | rfl | (exfalso; linarith)
      · simp only [inBucket, decide_eq_true_eq] at hki
        obtain ⟨hl, hr⟩ := hki
        unfold bucketIdx
        split_ifs <;> first | rfl | (exfalso; linarith)
      · simp only [inBucket, decide_eq_true_eq] at hki
        obtain ⟨hl, hr⟩ := hki
        unfold bucketIdx
        split_ifs <;> first | rfl | (exfalso; linarith)
      · simp only [inBucket, decide_eq_true_eq] at hki
        obtain ⟨hl, hr⟩ := hki
        unfold bucketIdx
        split_ifs <;> first | rfl | (exfalso; linarith)
      · simp only [inBucket, decide_eq_true_eq] at hki
        obtain ⟨hl, hr⟩ := hki
        unfold bucketIdx
        split_ifs <;> first | rfl | (exfalso; linarith)
      · simp only [inBucket, decide_eq_true_eq] at hki
        simp [bucketIdx, hki]
    · intro h
      subst h
      exact inBucket_of_bucketIdx a h0 h1

/-- Witness for C9 at the concrete ratios 1/2 and 3/4. -/
theorem ratio_marker_spec_witness :
    emoji (1/2 : ℚ) = bucketMarker (bucketIdx (1/2 : ℚ)) ∧
    (inBucket 4 (1/2 : ℚ) = true ↔ 4 = bucketIdx (1/2 : ℚ)) ∧
    bucketIdx (1/2 : ℚ) ≤ bucketIdx (3/4 : ℚ) :=
  ⟨(ratio_marker_spec (1/2) (by norm_num) (by norm_num)).1,
   (ratio_marker_spec (1/2) (by norm_num) (by norm_num)).2.2.1 4
     (by norm_num),
   (ratio_marker_spec (1/2) (by norm_num) (by norm_num)).2.2.2 (3/4)
     (by norm_num) (by norm_num)⟩
